import Mathlib

/-!
Shallow embedding of `mmdet/models/detectors/mask_scoring_rcnn_MH.py`
(class `MaskHintRCNN`), covering the orchestration logic of
`forward_train`, `refine_test_bboxes`, `simple_test_mask` and
`simple_test`.

Tensors are modelled value- and shape-faithfully as nested lists of
rationals (regions x channels x flattened pixels).  External
collaborators (backbone, RPN, RoI extractors, the heads' internals,
`bbox2roi`, the decode routines) are not under `src/`; they are
modelled from the spec, each with a doc comment saying so.  Config
objects are modelled as nested string-keyed dictionaries with
attribute access that fails on a missing key, exactly like the
`ConfigDict` attribute access the Python code performs.

Every call the orchestrator makes to a collaborator is recorded in an
event trace, so that claims about "which collaborator was invoked on
what" become statements about the trace.
-/

/-- A bounding box: its list of coordinates (4 or 5 rationals). -/
abbrev Box : Type := List ℚ

/-- An RoI row: the originating image index together with the box. -/
abbrev Roi : Type := Nat × Box

/-- A rank-4 tensor (regions x channels x height x width); `data` is
regions-major, each region a list of channels, each channel the
flattened `h*w` pixel values. -/
structure T4 where
  c : Nat
  h : Nat
  w : Nat
  data : List (List (List ℚ))
deriving DecidableEq, Repr

/-- Number of regions (rows) of a tensor. -/
def T4.n (t : T4) : Nat := t.data.length

/-- Elementwise op of line 168, `(x >= thr).float()`: 1 when `thr ≤ x`. -/
def pyGe (thr x : ℚ) : ℚ := if thr ≤ x then 1 else 0

/-- Elementwise op of line 249, `(x > thr).float()`: 1 when `thr < x`. -/
def pyGt (thr x : ℚ) : ℚ := if thr < x then 1 else 0

/-- `[:, 1:, :, :]` — drop the background channel (line 238 / line 168). -/
def T4.dropBg (t : T4) : T4 :=
  ⟨t.c - 1, t.h, t.w, t.data.map (fun chs => chs.drop 1)⟩

/-- Training-time binarization `(mask_pred >= thr).float()` (line 168). -/
def T4.binGe (t : T4) (thr : ℚ) : T4 :=
  ⟨t.c, t.h, t.w, t.data.map (fun chs => chs.map (fun px => px.map (pyGe thr)))⟩

/-- Inference-time binarization `(mask_pred > thr).float()` (line 249). -/
def T4.binGt (t : T4) (thr : ℚ) : T4 :=
  ⟨t.c, t.h, t.w, t.data.map (fun chs => chs.map (fun px => px.map (pyGt thr)))⟩

/-- `true` when every entry of the tensor is 0 or 1. -/
def T4.isBinary (t : T4) : Bool :=
  t.data.all (fun chs => chs.all (fun px => px.all (fun v => v == 0 || v == 1)))

/-- Modelled from the spec: `F.interpolate(t, (h, w))` — the spatial
resize is performed by the external tensor runtime; the model keeps the
region and channel structure and abstracts the interpolated values. -/
def interpT4 (t : T4) (h w : Nat) : T4 :=
  ⟨t.c, h, w, t.data.map (fun chs => chs.map (fun _ => List.replicate (h * w) (0 : ℚ)))⟩

/-- Modelled from the spec: a freshly pooled feature tensor of `n`
regions; pooled feature values are produced by the external RoI
extractor and are abstracted to zeros. -/
def mkZeros (n c h w : Nat) : T4 :=
  ⟨c, h, w, List.replicate n (List.replicate c (List.replicate (h * w) (0 : ℚ)))⟩

/-- A configuration value: a number, a string, or a nested dictionary —
the shape of an mmcv `ConfigDict`. -/
inductive CfgVal where
  | q (x : ℚ)
  | s (v : String)
  | sub (fields : List (String × CfgVal))

/-- Attribute access on a config: `cfg.k`.  A missing key raises, as
`ConfigDict.__getattr__` does. -/
def CfgVal.attr : CfgVal → String → Except String CfgVal
  | .sub fs, k =>
      match fs.lookup k with
      | some v => .ok v
      | none => .error ("AttributeError: " ++ k)
  | _, k => .error ("AttributeError: " ++ k)

/-- Two-level attribute access `cfg.k1.k2`. -/
def CfgVal.attr2 (c : CfgVal) (k1 k2 : String) : Except String CfgVal :=
  match c.attr k1 with
  | .ok v => v.attr k2
  | .error e => .error e

/-- Attribute access expecting a numeric leaf (a threshold). -/
def CfgVal.attrQ (c : CfgVal) (k : String) : Except String ℚ :=
  match c.attr k with
  | .ok (.q x) => .ok x
  | .ok _ => .error ("TypeError: " ++ k ++ " is not a number")
  | .error e => .error e

/-- Two-level numeric attribute access `cfg.k1.k2`. -/
def CfgVal.attr2Q (c : CfgVal) (k1 k2 : String) : Except String ℚ :=
  match c.attr k1 with
  | .ok v => v.attrQ k2
  | .error e => .error e

/-- The detector state: the capability flags of `TwoStageDetector`, the
two config trees, and the spec-modelled parameters of the external
heads (`mask_head.num_classes`, the mask extractor's output size, the
mask head's output size, the feature channel count, and an abstract
mask-logit function standing for the Mask Head's learned weights). -/
structure Detector where
  with_rpn : Bool
  with_bbox : Bool
  with_mask : Bool
  with_shared_head : Bool
  share_roi_extractor : Bool
  train_cfg : CfgVal
  test_cfg : CfgVal
  numClasses : Nat
  featC : Nat
  maskOut : Nat
  predSize : Nat
  maskLogit : Nat → Nat → Nat → ℚ

/-- One collaborator call made by the orchestrator.  `refineHeadCall`
records the two tensors actually handed to the Refinement Head
(`self.mask_iou_head(refine_feats, mask)`), lines 169 and 250. -/
inductive Event where
  | extractFeat
  | rpnForward
  | assignSample
  | bboxRoiCall (numRois : Nat)
  | maskRoiCall (numRois : Nat)
  | bboxHeadCall
  | maskHeadCall (regions : Nat)
  | sharedHeadCall
  | getTargetCall
  | refineHeadCall (feats : T4) (mask : T4)
  | decodeCall
deriving DecidableEq, Repr

/-- Modelled from the spec: `bbox2roi` (from `mmdet.core`, not under
`src/`) — "a concatenation tagging each pooled region with its
originating image index". -/
def bbox2roiAux : Nat → List (List Box) → List Roi
  | _, [] => []
  | i, bs :: rest => bs.map (fun b => (i, b)) ++ bbox2roiAux (i + 1) rest

/-- Modelled from the spec: `bbox2roi` on a per-image list of boxes. -/
def bbox2roi (l : List (List Box)) : List Roi := bbox2roiAux 0 l

/-- Modelled from the spec: the box-RoI extractor
(`self.bbox_roi_extractor`) pools one fixed-size (7x7, the box head's
standard resolution) feature tensor per RoI row. -/
def bboxRoiExtract (d : Detector) (rois : List Roi) : T4 :=
  mkZeros rois.length d.featC 7 7

/-- Modelled from the spec: the mask-RoI extractor
(`self.mask_roi_extractor`) pools one fixed-size feature tensor per RoI
row. -/
def maskRoiExtract (d : Detector) (rois : List Roi) : T4 :=
  mkZeros rois.length d.featC d.maskOut d.maskOut

/-- Modelled from the spec: the Mask Head forward
(`self.mask_head(feats)`) returns a per-region, per-class probability
map; one region of output per region of input, `num_classes` channels,
values given by the abstract logit function. -/
def maskHeadForward (d : Detector) (f : T4) : T4 :=
  ⟨d.numClasses, d.predSize, d.predSize,
    (List.range f.n).map (fun r =>
      (List.range d.numClasses).map (fun cl =>
        (List.range (d.predSize * d.predSize)).map (fun p => d.maskLogit r cl p)))⟩

/-- Modelled from the spec: the optional shared secondary processing
stage (`self.shared_head`); it transforms feature values and preserves
the region structure — values are abstract here, so it is the
identity on the modelled tensor. -/
def sharedHeadApply (t : T4) : T4 := t

/-- Modelled from the spec: `self.bbox_head.get_det_bboxes` — the Box
Head's decode routine (NMS/score details delegated to the external
head); it produces one candidate per RoI row here, so an empty RoI set
decodes to an empty detection set. -/
def getDetBboxes (rois : List Roi) : List Box × List Nat :=
  (rois.map Prod.snd, rois.map (fun _ => 0))

/-- Modelled from the spec: `bbox2result` (from `mmdet.core`) — group
the detections per foreground class. -/
def bbox2result (dets : List Box) (labels : List Nat) (numClasses : Nat) :
    List (List Box) :=
  (List.range (numClasses - 1)).map (fun cl =>
    (dets.zip labels).filterMap (fun p => if p.2 == cl then some p.1 else none))

/-- Modelled from the spec: `self.mask_head.get_seg_masks` — decode the
mask prediction into a per-foreground-class segmentation structure
(here: the labels routed to each class slot). -/
def getSegMasks (numClasses : Nat) (labels : List Nat) : List (List Nat) :=
  (List.range (numClasses - 1)).map (fun cl => labels.filter (fun l => l == cl))

/-- Modelled from the spec: the loss keys owned by the external RPN
head (`rpn_losses`, line 66-68). -/
def rpnLossKeys : List String := ["loss_rpn_cls", "loss_rpn_bbox"]

/-- Modelled from the spec: the loss keys owned by the external Box
Head (`loss_bbox`, line 116-118). -/
def bboxLossKeys : List String := ["loss_cls", "loss_bbox"]

/-- Modelled from the spec: the loss keys owned by the external Mask
Head (`loss_mask`, line 154-156). -/
def maskLossKeys : List String := ["loss_mask"]

/-- Modelled from the spec: the loss keys owned by the external
Refinement Head (`loss_refine`, line 173-175). -/
def refineLossKeys : List String := ["loss_refine_cls", "loss_refine_bbox"]

/-- One per-image sampling result (external Assigner/Sampler output):
the positive and negative sampled boxes, in sampler order. -/
structure SampRes where
  posBoxes : List Box
  negBoxes : List Box
deriving DecidableEq

/-- Total number of positive sampled boxes across the batch. -/
def totalPos (sres : List SampRes) : Nat :=
  (sres.map (fun s => s.posBoxes.length)).sum

/-- Total number of sampled boxes (positive and negative). -/
def totalAll (sres : List SampRes) : Nat :=
  (sres.map (fun s => s.posBoxes.length + s.negBoxes.length)).sum

/-- `pos_rois = bbox2roi([res.pos_bboxes for res in sampling_results])`
(line 124-125). -/
def trainPosRois (sres : List SampRes) : List Roi :=
  bbox2roi (sres.map (fun s => s.posBoxes))

/-- `rois = bbox2roi([res.bboxes for res in sampling_results])`
(line 101); a sampling result's `bboxes` is its positives followed by
its negatives. -/
def trainAllRois (sres : List SampRes) : List Roi :=
  bbox2roi (sres.map (fun s => s.posBoxes ++ s.negBoxes))

/-- The boolean row mask `pos_inds` of lines 131-144: per image, ones
for the positive rows then zeros for the negative rows. -/
def posIndsMask : List SampRes → List Bool
  | [] => []
  | s :: rest =>
      List.replicate s.posBoxes.length true ++
      List.replicate s.negBoxes.length false ++ posIndsMask rest

/-- Boolean-mask row selection, `bbox_feats[pos_inds]` (line 145). -/
def maskSelect : List Bool → List (List (List ℚ)) → List (List (List ℚ))
  | [], _ => []
  | _, [] => []
  | b :: bs, r :: rs =>
      if b then r :: maskSelect bs rs else maskSelect bs rs

/-- In the source, `pos_rois` is a Python local that exists only when
the non-shared-extractor branch ran (line 123-125); referring to it in
the shared branch is a NameError.  `none` models the unbound name. -/
def trainPosRoisOpt (d : Detector) (sres : List SampRes) : Option (List Roi) :=
  if d.share_roi_extractor then none else some (trainPosRois sres)

/-- Python equality test of a config value against a string literal
(`cfg.refine_sample == ...`): true only for an equal string value. -/
def cfgEqStr (c : CfgVal) (s : String) : Bool :=
  match c with
  | .s v => v == s
  | _ => false

/-- Lines 162-167 (training) and 239-244 (inference): select the
refinement-input features from the `refine_sample` policy value.
`resample` re-pools box-RoI features from the given rois; `interpolate`
resizes the pooled mask features to 7x7; any other value falls into the
`F.max_pool2d(mask_feats)` call, which omits the required
`kernel_size` argument and therefore raises a TypeError. -/
def refineFeatsSelect (d : Detector) (policy : CfgVal)
    (pos_rois : Option (List Roi)) (mask_feats : T4) :
    Except String (T4 × List Event) :=
  if cfgEqStr policy "resample" then
    match pos_rois with
    | some pr => .ok (bboxRoiExtract d pr, [Event.bboxRoiCall pr.length])
    | none => .error "NameError: name pos_rois is not defined"
  else if cfgEqStr policy "interpolate" then
    .ok (interpT4 mask_feats 7 7, [])
  else
    .error "TypeError: max_pool2d missing 1 required positional argument: kernel_size"

/-- Lines 123-145: obtain `mask_feats` — re-pool from the positive
rois when the extractors are separate, otherwise restrict the pooled
box features by the positive-row indicator (a NameError when
`bbox_feats` was never bound because the box head is disabled). -/
def trainMaskFeats (d : Detector) (sres : List SampRes) (bf : Option T4) :
    Except String (T4 × List Event) :=
  if d.share_roi_extractor then
    match bf with
    | some bfeats =>
        .ok (⟨bfeats.c, bfeats.h, bfeats.w, maskSelect (posIndsMask sres) bfeats.data⟩, [])
    | none => .error "NameError: name bbox_feats is not defined"
  else
    let pr := trainPosRois sres
    let mf := maskRoiExtract d pr
    if d.with_shared_head then
      .ok (sharedHeadApply mf, [Event.maskRoiCall pr.length, Event.sharedHeadCall])
    else
      .ok (mf, [Event.maskRoiCall pr.length])

/-- Lines 57-118 of `forward_train`: feature extraction, the RPN stage,
assignment/sampling, and the box-head stage.  Returns the trace, the
loss keys accumulated so far, and the pooled `bbox_feats` when the box
head ran. -/
def preMaskResult (d : Detector) (sres : List SampRes) :
    List Event × List String × Option T4 :=
  let tr : List Event := [Event.extractFeat]
  let trls : List Event × List String :=
    if d.with_rpn then (tr ++ [Event.rpnForward], rpnLossKeys) else (tr, [])
  let tr2 : List Event :=
    if d.with_bbox || d.with_mask then trls.1 ++ [Event.assignSample] else trls.1
  if d.with_bbox then
    let rois := trainAllRois sres
    let bf := bboxRoiExtract d rois
    if d.with_shared_head then
      (tr2 ++ [Event.bboxRoiCall rois.length, Event.sharedHeadCall,
               Event.bboxHeadCall, Event.getTargetCall],
       trls.2 ++ bboxLossKeys, some (sharedHeadApply bf))
    else
      (tr2 ++ [Event.bboxRoiCall rois.length, Event.bboxHeadCall, Event.getTargetCall],
       trls.2 ++ bboxLossKeys, some bf)
  else (tr2, trls.2, none)

/-- Lines 122-175 of `forward_train`: the mask stage and the refinement
sub-step.  `ls` carries the loss keys accumulated before this stage. -/
def maskStage (d : Detector) (sres : List SampRes) (bf : Option T4)
    (ls : List String) : List Event × Except String (List String) :=
  match trainMaskFeats d sres bf with
  | .error e => ([], .error e)
  | .ok (mask_feats, ev1) =>
      let mask_pred := maskHeadForward d mask_feats
      let tr := ev1 ++ [Event.maskHeadCall mask_feats.n, Event.getTargetCall]
      let ls2 := ls ++ maskLossKeys
      match d.train_cfg.attr2 "rcnn" "refine_sample" with
      | .error e => (tr, .error e)
      | .ok policy =>
          match refineFeatsSelect d policy (trainPosRoisOpt d sres) mask_feats with
          | .error e => (tr, .error e)
          | .ok (refine_feats, ev2) =>
              match d.train_cfg.attr2Q "rcnn" "mask_thr_binary" with
              | .error e => (tr ++ ev2, .error e)
              | .ok thr =>
                  let mask_bin := (mask_pred.dropBg).binGe thr
                  (tr ++ ev2 ++
                     [Event.refineHeadCall refine_feats mask_bin, Event.getTargetCall],
                   .ok (ls2 ++ refineLossKeys))

/-- `forward_train` (lines 49-190): the full training step, returning
the collaborator-call trace and either the raised error or the mapping
of loss keys. -/
def forward_train (d : Detector) (sres : List SampRes) :
    List Event × Except String (List String) :=
  let pre := preMaskResult d sres
  if d.with_mask then
    let ms := maskStage d sres pre.2.2 pre.2.1
    (pre.1 ++ ms.1, ms.2)
  else (pre.1, .ok pre.2.1)

/-- `refine_test_bboxes` (lines 229-262).  Note line 249 reads the
threshold from `rcnn_test_cfg.rcnn.mask_thr_binary`, i.e. through an
extra `rcnn` level below the config that `simple_test` passes in. -/
def refine_test_bboxes (d : Detector) (proposals : List Box)
    (rcnn_test_cfg : CfgVal) (rescale : Bool) :
    List Event × Except String (List Box × List Nat) :=
  let rois := bbox2roi [proposals]
  let roi_feats := maskRoiExtract d rois
  let mask_pred := (maskHeadForward d roi_feats).dropBg
  let tr := [Event.maskRoiCall rois.length, Event.maskHeadCall roi_feats.n]
  match d.test_cfg.attr2 "rcnn" "refine_sample" with
  | .error e => (tr, .error e)
  | .ok policy =>
      match refineFeatsSelect d policy (some rois) roi_feats with
      | .error e => (tr, .error e)
      | .ok (rf, ev2) =>
          let tr2 := tr ++ ev2
          let rftr : T4 × List Event :=
            if d.with_shared_head then (sharedHeadApply rf, tr2 ++ [Event.sharedHeadCall])
            else (rf, tr2)
          match rcnn_test_cfg.attr2Q "rcnn" "mask_thr_binary" with
          | .error e => (rftr.2, .error e)
          | .ok thr =>
              let refine_masks := mask_pred.binGt thr
              (rftr.2 ++ [Event.refineHeadCall rftr.1 refine_masks, Event.decodeCall],
               .ok (getDetBboxes rois))

/-- `simple_test_mask` (lines 192-227): when there are zero detections,
return one empty entry per foreground class without touching the Mask
Head; otherwise pool from the detections, run the Mask Head and decode. -/
def simple_test_mask (d : Detector) (det_bboxes : List Box)
    (det_labels : List Nat) (rescale : Bool) : List Event × List (List Nat) :=
  if det_bboxes.length = 0 then
    ([], List.replicate (d.numClasses - 1) [])
  else
    let mask_rois := bbox2roi [det_bboxes]
    let mask_feats := maskRoiExtract d mask_rois
    let tr := [Event.maskRoiCall mask_rois.length]
    let mftr : T4 × List Event :=
      if d.with_shared_head then (sharedHeadApply mask_feats, tr ++ [Event.sharedHeadCall])
      else (mask_feats, tr)
    (mftr.2 ++ [Event.maskHeadCall mftr.1.n, Event.decodeCall],
     getSegMasks d.numClasses det_labels)

/-- Modelled from the spec: `simple_test_bboxes` (from `two_stage.py`,
not under `src/`) — the first-pass box stage: pool box-RoI features
from the proposals, run the Box Head, and decode with the same
box-decoding routine (`get_det_bboxes`). -/
def simple_test_bboxes (d : Detector) (proposals : List Box) :
    List Box × List Nat :=
  getDetBboxes (bbox2roi [proposals])

/-- `simple_test` (lines 264-288): first-pass boxes, refinement pass
with `self.test_cfg.rcnn` as the refinement config, then the optional
segmentation stage. -/
def simple_test (d : Detector) (proposals : List Box) (rescale : Bool) :
    List Event × Except String (List (List Box) × Option (List (List Nat))) :=
  let tr : List Event :=
    [Event.extractFeat, Event.bboxRoiCall proposals.length,
     Event.bboxHeadCall, Event.decodeCall]
  let fp := simple_test_bboxes d proposals
  match d.test_cfg.attr "rcnn" with
  | .error e => (tr, .error e)
  | .ok rcnnCfg =>
      match refine_test_bboxes d fp.1 rcnnCfg rescale with
      | (tr2, .error e) => (tr ++ tr2, .error e)
      | (tr2, .ok dets) =>
          let bbox_results := bbox2result dets.1 dets.2 d.numClasses
          if d.with_mask then
            let sm := simple_test_mask d dets.1 dets.2 rescale
            (tr ++ tr2 ++ sm.1, .ok (bbox_results, some sm.2))
          else (tr ++ tr2, .ok (bbox_results, none))

/-- True exactly for box-RoI-extractor call events. -/
def isBoxRoiEvent : Event → Bool
  | .bboxRoiCall _ => true
  | _ => false

/-- Number of box-RoI-extractor invocations recorded in a trace. -/
def countBoxRoi (tr : List Event) : Nat := tr.countP (fun e => isBoxRoiEvent e)

/-- A one-pixel, one-channel, one-region tensor holding the value `v`. -/
def cellT4 (v : ℚ) : T4 := ⟨1, 1, 1, [[[v]]]⟩

/-- A small concrete detector (separate RoI extractors, no shared head,
all heads enabled) used to exercise the embedded code on closed inputs. -/
def mkDet (tc uc : CfgVal) : Detector :=
  { with_rpn := true, with_bbox := true, with_mask := true,
    with_shared_head := false, share_roi_extractor := false,
    train_cfg := tc, test_cfg := uc,
    numClasses := 2, featC := 1, maskOut := 1, predSize := 1,
    maskLogit := fun _ _ _ => 1 }

/-- Training rcnn sub-config with the `resample` policy. -/
def trainRcnnResample : CfgVal :=
  .sub [("refine_sample", .s "resample"), ("mask_thr_binary", .q 0)]

/-- Training rcnn sub-config with the `interpolate` policy. -/
def trainRcnnInterp : CfgVal :=
  .sub [("refine_sample", .s "interpolate"), ("mask_thr_binary", .q 0)]

/-- Training rcnn sub-config with an unrecognized policy value. -/
def trainRcnnMaxpool : CfgVal :=
  .sub [("refine_sample", .s "maxpool"), ("mask_thr_binary", .q 0)]

/-- Training rcnn sub-config with no `refine_sample` key at all. -/
def trainRcnnNoRefine : CfgVal := .sub [("mask_thr_binary", .q 0)]

/-- Wrap an rcnn sub-config into a full config tree. -/
def cfgOf (r : CfgVal) : CfgVal := .sub [("rpn", .sub []), ("rcnn", r)]

/-- The standard flat test-time rcnn config of this model family:
`mask_thr_binary` sits directly under `test_cfg.rcnn`, and there is no
nested `rcnn` key below it. -/
def stdTestRcnn : CfgVal :=
  .sub [("score_thr", .q (1 / 20)), ("max_per_img", .q 100),
        ("mask_thr_binary", .q (1 / 2)), ("refine_sample", .s "resample")]

/-- A test rcnn config shaped the way line 249 reads it: with a nested
`rcnn.mask_thr_binary` key (the only shape under which
`refine_test_bboxes` can get past line 249). -/
def nestedTestRcnn : CfgVal :=
  .sub [("refine_sample", .s "resample"),
        ("rcnn", .sub [("mask_thr_binary", .q 0)])]

/-- Like `nestedTestRcnn` but selecting the `interpolate` policy. -/
def nestedInterpTestRcnn : CfgVal :=
  .sub [("refine_sample", .s "interpolate"),
        ("rcnn", .sub [("mask_thr_binary", .q 0)])]

/-- Concrete detector with the `resample` policy and standard configs. -/
def dResample : Detector := mkDet (cfgOf trainRcnnResample) (cfgOf stdTestRcnn)

/-- Concrete detector with the `interpolate` policy. -/
def dInterp : Detector :=
  mkDet (cfgOf trainRcnnInterp) (cfgOf nestedInterpTestRcnn)

/-- Concrete detector with an unrecognized `refine_sample` value. -/
def dMaxpool : Detector :=
  mkDet (cfgOf trainRcnnMaxpool) (cfgOf (CfgVal.sub [("refine_sample", .s "maxpool")]))

/-- Concrete detector whose training config lacks `refine_sample`. -/
def dNoRefine : Detector := mkDet (cfgOf trainRcnnNoRefine) (cfgOf stdTestRcnn)

/-- Concrete detector whose test config is nested the way line 249
expects. -/
def dNested : Detector := mkDet (cfgOf trainRcnnResample) (cfgOf nestedTestRcnn)

/-- Concrete detector in the shared-RoI-extractor configuration with
the `resample` policy: the training branch at line 163 then refers to
the never-bound `pos_rois`. -/
def dShared : Detector :=
  { mkDet (cfgOf trainRcnnResample) (cfgOf stdTestRcnn) with share_roi_extractor := true }

/-- Concrete detector with the mask head disabled. -/
def dNoMask : Detector :=
  { mkDet (cfgOf trainRcnnNoRefine) (cfgOf stdTestRcnn) with with_mask := false }

/-- A one-image sampling result: one positive box, one negative box. -/
def sres1 : SampRes := ⟨[[0, 0, 4, 4]], [[1, 1, 2, 2]]⟩

/-- A concrete 5-coordinate detection box. -/
def box1 : Box := [0, 0, 4, 4, 9 / 10]

/-- The features `dResample`'s training step hands the Refinement Head. -/
def fW : T4 := bboxRoiExtract dResample (trainPosRois [sres1])

/-- The binarized mask `dResample`'s training step hands the Refinement
Head. -/
def mW : T4 :=
  ((maskHeadForward dResample (maskRoiExtract dResample (trainPosRois [sres1]))).dropBg).binGe 0

/-- The features `dNested`'s inference refinement hands the Refinement
Head for the single proposal `box1`. -/
def fW2 : T4 := bboxRoiExtract dNested (bbox2roi [[box1]])

/-- The binarized mask `dNested`'s inference refinement hands the
Refinement Head for the single proposal `box1`. -/
def mW2 : T4 :=
  ((maskHeadForward dNested (maskRoiExtract dNested (bbox2roi [[box1]]))).dropBg).binGt 0

/-! ## Shape and length lemmas -/

theorem bbox2roiAux_length (i : Nat) (l : List (List Box)) :
    (bbox2roiAux i l).length = (l.map List.length).sum := by
  induction l generalizing i with
  | nil => simp [bbox2roiAux]
  | cons bs rest ih => simp [bbox2roiAux, ih]

theorem bbox2roi_length (l : List (List Box)) :
    (bbox2roi l).length = (l.map List.length).sum :=
  bbox2roiAux_length 0 l

theorem bbox2roi_single_length (bs : List Box) :
    (bbox2roi [bs]).length = bs.length := by
  simp [bbox2roi_length]

theorem trainPosRois_length (sres : List SampRes) :
    (trainPosRois sres).length = totalPos sres := by
  rw [trainPosRois, bbox2roi_length, List.map_map]
  rfl

theorem trainAllRois_length (sres : List SampRes) :
    (trainAllRois sres).length = totalAll sres := by
  rw [trainAllRois, bbox2roi_length]
  induction sres with
  | nil => simp [totalAll]
  | cons s rest ih =>
      simp only [List.map_cons, List.sum_cons, List.length_append, totalAll] at ih ⊢
      omega

theorem mkZeros_n (n c h w : Nat) : (mkZeros n c h w).n = n := by
  simp [mkZeros, T4.n]

theorem bboxRoiExtract_n (d : Detector) (rois : List Roi) :
    (bboxRoiExtract d rois).n = rois.length := by
  simp [bboxRoiExtract, mkZeros_n]

theorem maskRoiExtract_n (d : Detector) (rois : List Roi) :
    (maskRoiExtract d rois).n = rois.length := by
  simp [maskRoiExtract, mkZeros_n]

theorem maskHeadForward_n (d : Detector) (f : T4) :
    (maskHeadForward d f).n = f.n := by
  simp [maskHeadForward, T4.n]

theorem dropBg_n (t : T4) : t.dropBg.n = t.n := by
  simp [T4.dropBg, T4.n]

theorem binGe_n (t : T4) (thr : ℚ) : (t.binGe thr).n = t.n := by
  simp [T4.binGe, T4.n]

theorem binGt_n (t : T4) (thr : ℚ) : (t.binGt thr).n = t.n := by
  simp [T4.binGt, T4.n]

theorem interpT4_n (t : T4) (h w : Nat) : (interpT4 t h w).n = t.n := by
  simp [interpT4, T4.n]

theorem sharedHeadApply_eq (t : T4) : sharedHeadApply t = t := rfl

theorem posIndsMask_length (sres : List SampRes) :
    (posIndsMask sres).length = totalAll sres := by
  induction sres with
  | nil => simp [posIndsMask, totalAll]
  | cons s rest ih => simp [posIndsMask, totalAll, ih]; ring

theorem posIndsMask_count (sres : List SampRes) :
    (posIndsMask sres).count true = totalPos sres := by
  induction sres with
  | nil => simp [posIndsMask, totalPos]
  | cons s rest ih =>
      simp [posIndsMask, totalPos, List.count_append, List.count_replicate, ih]

theorem maskSelect_length :
    ∀ (bs : List Bool) (rows : List (List (List ℚ))),
      bs.length = rows.length →
      (maskSelect bs rows).length = bs.count true := by
  intro bs
  induction bs with
  | nil => intro rows _; simp [maskSelect]
  | cons b tl ih =>
      intro rows h
      cases rows with
      | nil => simp at h
      | cons r rs =>
          simp only [List.length_cons, Nat.succ.injEq] at h
          cases b with
          | false => simpa [maskSelect, List.count_cons] using ih rs h
          | true => simpa [maskSelect, List.count_cons] using ih rs h

/-! ## Inversion lemmas: what the orchestrator hands the Refinement Head -/

theorem trainPosRoisOpt_length (d : Detector) (sres : List SampRes)
    (pr : List Roi) (h : trainPosRoisOpt d sres = some pr) :
    pr.length = totalPos sres := by
  unfold trainPosRoisOpt at h
  by_cases hs : d.share_roi_extractor = true
  · simp [hs] at h
  · simp only [hs, if_neg, Bool.not_eq_true, Option.some.injEq] at h
    rw [← h, trainPosRois_length]

theorem trainMaskFeats_n (d : Detector) (sres : List SampRes) (bf : Option T4)
    (mf : T4) (ev : List Event)
    (h : trainMaskFeats d sres bf = .ok (mf, ev))
    (hbf : ∀ b, bf = some b → b.n = totalAll sres) :
    mf.n = totalPos sres := by
  by_cases hs : d.share_roi_extractor = true
  · cases bf with
    | none => simp [trainMaskFeats, hs] at h
    | some b =>
        simp only [trainMaskFeats, hs, if_true, Except.ok.injEq, Prod.mk.injEq] at h
        obtain ⟨h1, -⟩ := h
        have hb : b.n = totalAll sres := hbf b rfl
        rw [← h1]
        simp only [T4.n]
        rw [maskSelect_length _ _ (by rw [posIndsMask_length]; exact hb.symm),
            posIndsMask_count]
  · by_cases hsh : d.with_shared_head = true
    · simp only [trainMaskFeats, hs, hsh, if_true, Except.ok.injEq, Prod.mk.injEq,
                 Bool.false_eq_true, if_false] at h
      obtain ⟨h1, -⟩ := h
      rw [← h1, sharedHeadApply_eq, maskRoiExtract_n, trainPosRois_length]
    · simp only [trainMaskFeats, hs, hsh, Except.ok.injEq, Prod.mk.injEq,
                 Bool.false_eq_true, if_false] at h
      obtain ⟨h1, -⟩ := h
      rw [← h1, maskRoiExtract_n, trainPosRois_length]

theorem trainMaskFeats_no_refine (d : Detector) (sres : List SampRes)
    (bf : Option T4) (mf : T4) (ev : List Event)
    (h : trainMaskFeats d sres bf = .ok (mf, ev)) (f m : T4) :
    Event.refineHeadCall f m ∉ ev := by
  by_cases hs : d.share_roi_extractor = true
  · cases bf with
    | none => simp [trainMaskFeats, hs] at h
    | some b =>
        simp only [trainMaskFeats, hs, if_true, Except.ok.injEq, Prod.mk.injEq] at h
        obtain ⟨-, h2⟩ := h
        rw [← h2]
        simp
  · by_cases hsh : d.with_shared_head = true
    · simp only [trainMaskFeats, hs, hsh, if_true, Except.ok.injEq, Prod.mk.injEq,
                 Bool.false_eq_true, if_false] at h
      obtain ⟨-, h2⟩ := h
      rw [← h2]
      simp
    · simp only [trainMaskFeats, hs, hsh, Except.ok.injEq, Prod.mk.injEq,
                 Bool.false_eq_true, if_false] at h
      obtain ⟨-, h2⟩ := h
      rw [← h2]
      simp

theorem trainMaskFeats_countBoxRoi (d : Detector) (sres : List SampRes)
    (bf : Option T4) (mf : T4) (ev : List Event)
    (h : trainMaskFeats d sres bf = .ok (mf, ev)) :
    countBoxRoi ev = 0 := by
  by_cases hs : d.share_roi_extractor = true
  · cases bf with
    | none => simp [trainMaskFeats, hs] at h
    | some b =>
        simp only [trainMaskFeats, hs, if_true, Except.ok.injEq, Prod.mk.injEq] at h
        obtain ⟨-, h2⟩ := h
        rw [← h2]
        rfl
  · by_cases hsh : d.with_shared_head = true
    · simp only [trainMaskFeats, hs, hsh, if_true, Except.ok.injEq, Prod.mk.injEq,
                 Bool.false_eq_true, if_false] at h
      obtain ⟨-, h2⟩ := h
      rw [← h2]
      rfl
    · simp only [trainMaskFeats, hs, hsh, Except.ok.injEq, Prod.mk.injEq,
                 Bool.false_eq_true, if_false] at h
      obtain ⟨-, h2⟩ := h
      rw [← h2]
      rfl

theorem refineFeatsSelect_no_refine (d : Detector) (policy : CfgVal)
    (pro : Option (List Roi)) (mf rf : T4) (ev : List Event)
    (h : refineFeatsSelect d policy pro mf = .ok (rf, ev)) (f m : T4) :
    Event.refineHeadCall f m ∉ ev := by
  unfold refineFeatsSelect at h
  by_cases h1 : cfgEqStr policy "resample" = true
  · simp only [h1, if_true] at h
    cases pro with
    | none => simp at h
    | some pr =>
        simp only [Except.ok.injEq, Prod.mk.injEq] at h
        obtain ⟨-, h2⟩ := h
        rw [← h2]
        simp
  · by_cases h2 : cfgEqStr policy "interpolate" = true
    · simp only [h1, h2, if_true, Bool.false_eq_true, if_false,
                 Except.ok.injEq, Prod.mk.injEq] at h
      obtain ⟨-, h3⟩ := h
      rw [← h3]
      simp
    · simp [h1, h2] at h

theorem refineFeatsSelect_n (d : Detector) (policy : CfgVal)
    (pro : Option (List Roi)) (mf rf : T4) (ev : List Event) (N : Nat)
    (h : refineFeatsSelect d policy pro mf = .ok (rf, ev))
    (hpro : ∀ pr, pro = some pr → pr.length = N)
    (hmf : mf.n = N) : rf.n = N := by
  unfold refineFeatsSelect at h
  by_cases h1 : cfgEqStr policy "resample" = true
  · simp only [h1, if_true] at h
    cases pro with
    | none => simp at h
    | some pr =>
        simp only [Except.ok.injEq, Prod.mk.injEq] at h
        obtain ⟨hrf, -⟩ := h
        rw [← hrf, bboxRoiExtract_n]
        exact hpro pr rfl
  · by_cases h2 : cfgEqStr policy "interpolate" = true
    · simp only [h1, h2, if_true, Bool.false_eq_true, if_false,
                 Except.ok.injEq, Prod.mk.injEq] at h
      obtain ⟨hrf, -⟩ := h
      rw [← hrf, interpT4_n]
      exact hmf
    · simp [h1, h2] at h

theorem preMask_no_refine (d : Detector) (sres : List SampRes) (f m : T4) :
    Event.refineHeadCall f m ∉ (preMaskResult d sres).1 := by
  by_cases h1 : d.with_rpn = true <;> by_cases h2 : d.with_bbox = true <;>
    by_cases h3 : d.with_mask = true <;> by_cases h4 : d.with_shared_head = true <;>
    simp [preMaskResult, h1, h2, h3, h4]

theorem preMask_extract (d : Detector) (sres : List SampRes) :
    Event.extractFeat ∈ (preMaskResult d sres).1 := by
  by_cases h1 : d.with_rpn = true <;> by_cases h2 : d.with_bbox = true <;>
    by_cases h3 : d.with_mask = true <;> by_cases h4 : d.with_shared_head = true <;>
    simp [preMaskResult, h1, h2, h3, h4]

theorem preMask_losses (d : Detector) (sres : List SampRes) :
    (preMaskResult d sres).2.1 =
      (if d.with_rpn then rpnLossKeys else []) ++
      (if d.with_bbox then bboxLossKeys else []) := by
  by_cases h1 : d.with_rpn = true <;> by_cases h2 : d.with_bbox = true <;>
    by_cases h3 : d.with_mask = true <;> by_cases h4 : d.with_shared_head = true <;>
    simp [preMaskResult, h1, h2, h3, h4]

theorem preMask_bf (d : Detector) (sres : List SampRes) (b : T4)
    (h : (preMaskResult d sres).2.2 = some b) : b.n = totalAll sres := by
  by_cases h1 : d.with_rpn = true <;> by_cases h2 : d.with_bbox = true <;>
    by_cases h3 : d.with_mask = true <;> by_cases h4 : d.with_shared_head = true <;>
    simp only [preMaskResult, h1, h2, h3, h4, Bool.false_eq_true, Bool.true_or,
               Bool.false_or, Bool.or_false, Bool.or_true, if_true, if_false,
               Option.some.injEq, reduceCtorEq] at h <;>
    first
      | exact absurd h (by simp)
      | (rw [← h, sharedHeadApply_eq, bboxRoiExtract_n, trainAllRois_length])
      | (rw [← h, bboxRoiExtract_n, trainAllRois_length])

theorem preMask_bf_some (d : Detector) (sres : List SampRes)
    (hb : d.with_bbox = true) :
    ∃ b, (preMaskResult d sres).2.2 = some b := by
  by_cases h1 : d.with_rpn = true <;> by_cases h3 : d.with_mask = true <;>
    by_cases h4 : d.with_shared_head = true <;>
    exact ⟨bboxRoiExtract d (trainAllRois sres),
           by simp [preMaskResult, h1, hb, h3, h4, sharedHeadApply]⟩

theorem preMask_countBoxRoi (d : Detector) (sres : List SampRes) :
    countBoxRoi (preMaskResult d sres).1 = if d.with_bbox = true then 1 else 0 := by
  by_cases h1 : d.with_rpn = true <;> by_cases h2 : d.with_bbox = true <;>
    by_cases h3 : d.with_mask = true <;> by_cases h4 : d.with_shared_head = true <;>
    simp [preMaskResult, h1, h2, h3, h4, countBoxRoi, isBoxRoiEvent]

theorem maskStage_refine_inv (d : Detector) (sres : List SampRes) (bf : Option T4)
    (ls : List String) (f m : T4)
    (h : Event.refineHeadCall f m ∈ (maskStage d sres bf ls).1)
    (hbf : ∀ b, bf = some b → b.n = totalAll sres) :
    ∃ thr mf, m = ((maskHeadForward d mf).dropBg).binGe thr ∧
      mf.n = totalPos sres ∧ f.n = totalPos sres := by
  unfold maskStage at h
  cases htm : trainMaskFeats d sres bf with
  | error e => simp [htm] at h
  | ok p =>
      obtain ⟨mf, ev1⟩ := p
      simp only [htm] at h
      have hmfn : mf.n = totalPos sres := trainMaskFeats_n d sres bf mf ev1 htm hbf
      have hev1 := trainMaskFeats_no_refine d sres bf mf ev1 htm f m
      cases hat : d.train_cfg.attr2 "rcnn" "refine_sample" with
      | error e =>
          simp only [hat, List.mem_append] at h
          rcases h with h | h
          · exact absurd h hev1
          · simp at h
      | ok policy =>
          simp only [hat] at h
          cases hsel : refineFeatsSelect d policy (trainPosRoisOpt d sres) mf with
          | error e =>
              simp only [hsel, List.mem_append] at h
              rcases h with h | h
              · exact absurd h hev1
              · simp at h
          | ok q =>
              obtain ⟨rf, ev2⟩ := q
              simp only [hsel] at h
              have hev2 := refineFeatsSelect_no_refine d policy _ mf rf ev2 hsel f m
              have hrfn : rf.n = totalPos sres :=
                refineFeatsSelect_n d policy _ mf rf ev2 (totalPos sres) hsel
                  (fun pr hpr => trainPosRoisOpt_length d sres pr hpr) hmfn
              cases hthr : d.train_cfg.attr2Q "rcnn" "mask_thr_binary" with
              | error e =>
                  simp only [hthr, List.mem_append] at h
                  rcases h with (h | h) | h
                  · exact absurd h hev1
                  · simp at h
                  · exact absurd h hev2
              | ok thr =>
                  simp only [hthr, List.mem_append] at h
                  rcases h with ((h | h) | h) | h
                  · exact absurd h hev1
                  · simp at h
                  · exact absurd h hev2
                  · simp only [List.mem_cons, List.mem_singleton,
                               Event.refineHeadCall.injEq] at h
                    rcases h with ⟨hf, hm⟩ | h
                    · exact ⟨thr, mf, hm, hmfn, hf ▸ hrfn⟩
                    · simp at h

theorem maskStage_ok_keys (d : Detector) (sres : List SampRes) (bf : Option T4)
    (ls keys : List String)
    (h : (maskStage d sres bf ls).2 = .ok keys) :
    keys = ls ++ maskLossKeys ++ refineLossKeys := by
  unfold maskStage at h
  cases htm : trainMaskFeats d sres bf with
  | error e => simp [htm] at h
  | ok p =>
      obtain ⟨mf, ev1⟩ := p
      simp only [htm] at h
      cases hat : d.train_cfg.attr2 "rcnn" "refine_sample" with
      | error e => simp [hat] at h
      | ok policy =>
          simp only [hat] at h
          cases hsel : refineFeatsSelect d policy (trainPosRoisOpt d sres) mf with
          | error e => simp [hsel] at h
          | ok q =>
              obtain ⟨rf, ev2⟩ := q
              simp only [hsel] at h
              cases hthr : d.train_cfg.attr2Q "rcnn" "mask_thr_binary" with
              | error e => simp [hthr] at h
              | ok thr =>
                  simp only [hthr, Except.ok.injEq] at h
                  rw [← h]

theorem forward_train_refine_inv (d : Detector) (sres : List SampRes) (f m : T4)
    (h : Event.refineHeadCall f m ∈ (forward_train d sres).1) :
    ∃ thr mf, m = ((maskHeadForward d mf).dropBg).binGe thr ∧
      mf.n = totalPos sres ∧ f.n = totalPos sres ∧ m.n = totalPos sres := by
  unfold forward_train at h
  by_cases hm : d.with_mask = true
  · simp only [hm, if_true, List.mem_append] at h
    rcases h with h | h
    · exact absurd h (preMask_no_refine d sres f m)
    · obtain ⟨thr, mf, hmeq, hmfn, hfn⟩ :=
        maskStage_refine_inv d sres _ _ f m h (fun b hb => preMask_bf d sres b hb)
      refine ⟨thr, mf, hmeq, hmfn, hfn, ?_⟩
      rw [hmeq, binGe_n, dropBg_n, maskHeadForward_n, hmfn]
  · simp only [hm, Bool.false_eq_true, if_false] at h
    exact absurd h (preMask_no_refine d sres f m)

theorem refine_test_refine_inv (d : Detector) (props : List Box) (cfg : CfgVal)
    (rsc : Bool) (f m : T4)
    (h : Event.refineHeadCall f m ∈ (refine_test_bboxes d props cfg rsc).1) :
    ∃ thr, m = ((maskHeadForward d (maskRoiExtract d (bbox2roi [props]))).dropBg).binGt thr ∧
      f.n = props.length ∧ m.n = props.length := by
  unfold refine_test_bboxes at h
  cases hat : d.test_cfg.attr2 "rcnn" "refine_sample" with
  | error e => simp [hat] at h
  | ok policy =>
      simp only [hat] at h
      cases hsel : refineFeatsSelect d policy (some (bbox2roi [props]))
          (maskRoiExtract d (bbox2roi [props])) with
      | error e => simp [hsel] at h
      | ok q =>
          obtain ⟨rf, ev2⟩ := q
          simp only [hsel] at h
          have hev2 := refineFeatsSelect_no_refine d policy _ _ rf ev2 hsel f m
          have hrfn : rf.n = props.length :=
            refineFeatsSelect_n d policy _ _ rf ev2 props.length hsel
              (fun pr hpr => by
                injection hpr with hpr2
                exact hpr2 ▸ bbox2roi_single_length props)
              (by rw [maskRoiExtract_n, bbox2roi_single_length])
          cases hthr : cfg.attr2Q "rcnn" "mask_thr_binary" with
          | error e =>
              by_cases hsh : d.with_shared_head = true <;>
                simp only [hthr, hsh, if_true, Bool.false_eq_true, if_false,
                           List.mem_append] at h
              · rcases h with (h | h) | h
                · simp at h
                · exact absurd h hev2
                · simp at h
              · rcases h with h | h
                · simp at h
                · exact absurd h hev2
          | ok thr =>
              by_cases hsh : d.with_shared_head = true <;>
                simp only [hthr, hsh, if_true, Bool.false_eq_true, if_false,
                           List.mem_append] at h
              · rcases h with ((h | h) | h) | h
                · simp at h
                · exact absurd h hev2
                · simp at h
                · simp only [List.mem_cons, List.mem_singleton,
                             Event.refineHeadCall.injEq] at h
                  rcases h with ⟨hf, hm⟩ | h
                  · refine ⟨thr, hm, ?_, ?_⟩
                    · rw [hf, sharedHeadApply_eq]; exact hrfn
                    · rw [hm, binGt_n, dropBg_n, maskHeadForward_n, maskRoiExtract_n,
                          bbox2roi_single_length]
                  · simp at h
              · rcases h with (h | h) | h
                · simp at h
                · exact absurd h hev2
                · simp only [List.mem_cons, List.mem_singleton,
                             Event.refineHeadCall.injEq] at h
                  rcases h with ⟨hf, hm⟩ | h
                  · refine ⟨thr, hm, hf ▸ hrfn, ?_⟩
                    rw [hm, binGt_n, dropBg_n, maskHeadForward_n, maskRoiExtract_n,
                        bbox2roi_single_length]
                  · simp at h

/-! ## Binarization lemmas -/

theorem pyGe_binary (thr x : ℚ) : pyGe thr x = 0 ∨ pyGe thr x = 1 := by
  unfold pyGe
  split <;> simp

theorem pyGt_binary (thr x : ℚ) : pyGt thr x = 0 ∨ pyGt thr x = 1 := by
  unfold pyGt
  split <;> simp

theorem binGe_isBinary (t : T4) (thr : ℚ) : (t.binGe thr).isBinary = true := by
  simp only [T4.isBinary, T4.binGe, List.all_eq_true]
  intro chs hchs px hpx v hv
  simp only [List.mem_map] at hchs
  obtain ⟨chs0, -, rfl⟩ := hchs
  simp only [List.mem_map] at hpx
  obtain ⟨px0, -, rfl⟩ := hpx
  simp only [List.mem_map] at hv
  obtain ⟨v0, -, rfl⟩ := hv
  rcases pyGe_binary thr v0 with h | h <;> simp [h]

theorem binGt_isBinary (t : T4) (thr : ℚ) : (t.binGt thr).isBinary = true := by
  simp only [T4.isBinary, T4.binGt, List.all_eq_true]
  intro chs hchs px hpx v hv
  simp only [List.mem_map] at hchs
  obtain ⟨chs0, -, rfl⟩ := hchs
  simp only [List.mem_map] at hpx
  obtain ⟨px0, -, rfl⟩ := hpx
  simp only [List.mem_map] at hv
  obtain ⟨v0, -, rfl⟩ := hv
  rcases pyGt_binary thr v0 with h | h <;> simp [h]

theorem isBinary_vals (t : T4) (hb : t.isBinary = true) :
    ∀ chs ∈ t.data, ∀ px ∈ chs, ∀ v ∈ px, v = 0 ∨ v = 1 := by
  simp only [T4.isBinary, List.all_eq_true] at hb
  intro chs hchs px hpx v hv
  have := hb chs hchs px hpx v hv
  simpa using this

theorem map_fix {α : Type} (f : α → α) :
    ∀ l : List α, (∀ x ∈ l, f x = x) → l.map f = l := by
  intro l
  induction l with
  | nil => simp
  | cons a tl ih =>
      intro h
      simp only [List.map_cons, h a (by simp), List.cons.injEq, true_and]
      exact ih (fun x hx => h x (by simp [hx]))

theorem pyGe_fix (thr v : ℚ) (h0 : 0 < thr) (h1 : thr ≤ 1)
    (hv : v = 0 ∨ v = 1) : pyGe thr v = v := by
  rcases hv with rfl | rfl <;> unfold pyGe
  · rw [if_neg (not_le.mpr h0)]
  · rw [if_pos h1]

theorem pyGt_fix (thr v : ℚ) (h0 : 0 ≤ thr) (h1 : thr < 1)
    (hv : v = 0 ∨ v = 1) : pyGt thr v = v := by
  rcases hv with rfl | rfl <;> unfold pyGt
  · rw [if_neg (not_lt.mpr h0)]
  · rw [if_pos h1]

theorem binGe_fix (t : T4) (thr : ℚ) (h0 : 0 < thr) (h1 : thr ≤ 1)
    (hb : t.isBinary = true) : t.binGe thr = t := by
  have hv := isBinary_vals t hb
  cases t with
  | mk c h w data =>
      simp only [T4.binGe, T4.mk.injEq, true_and]
      apply map_fix
      intro chs hchs
      apply map_fix
      intro px hpx
      apply map_fix
      intro v hvmem
      exact pyGe_fix thr v h0 h1 (hv chs hchs px hpx v hvmem)

theorem binGt_fix (t : T4) (thr : ℚ) (h0 : 0 ≤ thr) (h1 : thr < 1)
    (hb : t.isBinary = true) : t.binGt thr = t := by
  have hv := isBinary_vals t hb
  cases t with
  | mk c h w data =>
      simp only [T4.binGt, T4.mk.injEq, true_and]
      apply map_fix
      intro chs hchs
      apply map_fix
      intro px hpx
      apply map_fix
      intro v hvmem
      exact pyGt_fix thr v h0 h1 (hv chs hchs px hpx v hvmem)

/-! ## Loss-key lemma for the training step -/

theorem forward_train_ok_keys (d : Detector) (sres : List SampRes)
    (keys : List String) (h : (forward_train d sres).2 = .ok keys) :
    keys =
      (if d.with_rpn then rpnLossKeys else []) ++
      (if d.with_bbox then bboxLossKeys else []) ++
      (if d.with_mask then maskLossKeys ++ refineLossKeys else []) := by
  unfold forward_train at h
  by_cases hm : d.with_mask = true
  · simp only [hm, if_true] at h
    have hk := maskStage_ok_keys d sres _ _ keys h
    rw [hk, preMask_losses d sres, hm]
    simp [List.append_assoc]
  · simp only [hm, Bool.false_eq_true, if_false, Except.ok.injEq] at h
    rw [← h, preMask_losses d sres]
    simp [hm]

/-! ## Claim theorems -/

/-- C9 counterexample: the one-pixel mask holding `0` is already binary,
yet re-binarizing it with the training-time operation (`>=`, line 168)
at the configured threshold `0` (a legal threshold in `[0,1]`) flips it
to `1`, so the result is not the identical mask. -/
theorem c9_boundary_counterexample :
    (cellT4 0).isBinary = true ∧
    T4.binGe (cellT4 0) 0 = cellT4 1 ∧
    T4.binGe (cellT4 0) 0 ≠ cellT4 0 ∧
    T4.binGt (cellT4 1) 1 = cellT4 0 ∧
    T4.binGt (cellT4 1) 1 ≠ cellT4 1 := by
  refine ⟨by decide, by decide, by decide, by decide, by decide⟩

/-- C9 (amended): binarizing an already-binary mask at the same
threshold returns the identical mask, provided the threshold avoids the
boundary that the comparison operator maps the wrong way: the
training-time `>=` binarization (line 168) is idempotent for thresholds
with `0 < thr ≤ 1`, and the inference-time `>` binarization (line 249)
is idempotent for thresholds with `0 ≤ thr < 1`; in particular both are
idempotent for every threshold strictly between 0 and 1. -/
theorem c9_binarization_idempotent :
    ∀ (t : T4) (thr : ℚ), t.isBinary = true →
      (0 < thr → thr ≤ 1 → t.binGe thr = t) ∧
      (0 ≤ thr → thr < 1 → t.binGt thr = t) := by
  intro t thr hb
  exact ⟨fun h0 h1 => binGe_fix t thr h0 h1 hb,
         fun h0 h1 => binGt_fix t thr h0 h1 hb⟩

/-- Witness for C9 (amended) at the concrete binary mask `[1]` and the
default threshold `1/2`. -/
theorem c9_binarization_idempotent_witness :
    T4.binGe (cellT4 1) (1 / 2) = cellT4 1 ∧
    T4.binGt (cellT4 1) (1 / 2) = cellT4 1 :=
  ⟨(c9_binarization_idempotent (cellT4 1) (1 / 2) (by decide)).1 (by norm_num) (by norm_num),
   (c9_binarization_idempotent (cellT4 1) (1 / 2) (by decide)).2 (by norm_num) (by norm_num)⟩

/-- C10: a mask value exactly equal to the configured threshold is
mapped to foreground `1` by the training-time binarization (`>=`,
line 168) and to background `0` by the inference-time binarization
(`>`, line 249); on every other value the two operations agree. -/
theorem c10_threshold_tie_behavior :
    ∀ thr x : ℚ,
      pyGe thr thr = 1 ∧ pyGt thr thr = 0 ∧
      T4.binGe (cellT4 thr) thr = cellT4 1 ∧
      T4.binGt (cellT4 thr) thr = cellT4 0 ∧
      (x ≠ thr → pyGe thr x = pyGt thr x) := by
  intro thr x
  refine ⟨by simp [pyGe], by simp [pyGt], ?_, ?_, ?_⟩
  · simp [T4.binGe, cellT4, pyGe]
  · simp [T4.binGt, cellT4, pyGt]
  · intro hne
    unfold pyGe pyGt
    rcases lt_trichotomy x thr with hlt | heq | hgt
    · rw [if_neg (not_le.mpr hlt), if_neg (not_lt.mpr hlt.le)]
    · exact absurd heq hne
    · rw [if_pos hgt.le, if_pos hgt]

/-- Witness for C10 at threshold `1/2` and the off-threshold value
`1/4`. -/
theorem c10_threshold_tie_behavior_witness :
    pyGe (1 / 2) (1 / 2) = 1 ∧ pyGt (1 / 2) (1 / 2) = 0 ∧
    pyGe (1 / 2) (1 / 4) = pyGt (1 / 2) (1 / 4) := by
  obtain ⟨h1, h2, -, -, h5⟩ := c10_threshold_tie_behavior (1 / 2) (1 / 4)
  exact ⟨h1, h2, h5 (by norm_num)⟩

/-- C1: at inference the binarization threshold is read from
`rcnn_test_cfg.rcnn.mask_thr_binary` (line 249), although
`rcnn_test_cfg` already is `self.test_cfg.rcnn` (line 277-278).  Under
the standard flat test config — which does hold `mask_thr_binary`
directly, as the claim's `test_cfg.rcnn.mask_thr_binary` describes, and
which the other reads of the same function (line 239, line 260) rely on
— the doubly-nested lookup fails, so `refine_test_bboxes` (and hence
`simple_test`) raises instead of binarizing at the configured
threshold. -/
theorem c1_threshold_misread :
    stdTestRcnn.attrQ "mask_thr_binary" = .ok (1 / 2) ∧
    stdTestRcnn.attr2 "rcnn" "mask_thr_binary" = .error "AttributeError: rcnn" ∧
    (refine_test_bboxes dResample [box1] stdTestRcnn false).2 =
      .error "AttributeError: rcnn" ∧
    (simple_test dResample [box1] false).2 = .error "AttributeError: rcnn" := by
  refine ⟨rfl, rfl, rfl, rfl⟩

/-- C3: for a `refine_sample` value matching neither `resample` nor
`interpolate`, the fallback branch calls `F.max_pool2d(mask_feats)`
with no `kernel_size` argument (lines 167 and 244), which raises a
TypeError; the refinement sub-step therefore does not complete, in
training or in inference. -/
theorem c3_fallback_raises :
    refineFeatsSelect dMaxpool (.s "maxpool") (some (trainPosRois [sres1]))
        (maskRoiExtract dMaxpool (trainPosRois [sres1])) =
      .error "TypeError: max_pool2d missing 1 required positional argument: kernel_size" ∧
    (forward_train dMaxpool [sres1]).2 =
      .error "TypeError: max_pool2d missing 1 required positional argument: kernel_size" ∧
    (refine_test_bboxes dMaxpool [box1] (CfgVal.sub []) false).2 =
      .error "TypeError: max_pool2d missing 1 required positional argument: kernel_size" := by
  refine ⟨rfl, rfl, rfl⟩

/-- C8: with zero provisional detections, the segmentation stage
(lines 202-204) does return one empty entry per foreground class
without invoking the Mask Head (empty trace); but `refine_test_bboxes`
only returns the empty detection result when the test config carries
the nested `rcnn.mask_thr_binary` key that line 249 reads — under the
standard flat config it raises the line-249 missing-key error even on
the empty input. -/
theorem c8_zero_detections :
    (refine_test_bboxes dResample [] stdTestRcnn false).2 =
      .error "AttributeError: rcnn" ∧
    (refine_test_bboxes dNested [] nestedTestRcnn false).2 = .ok ([], []) ∧
    simple_test_mask dResample [] [] false =
      ([], List.replicate (dResample.numClasses - 1) []) ∧
    (simple_test_mask dResample [] [] false).1 = [] := by
  refine ⟨rfl, rfl, rfl, rfl⟩

/-- C4: every tensor handed to the Refinement Head as its mask argument
— by the training step or by the inference refinement pass — contains
only the values 0 and 1: it is always the output of thresholding, never
a soft probability map. -/
theorem c4_refinement_mask_binary :
    (∀ (d : Detector) (sres : List SampRes) (f m : T4),
       Event.refineHeadCall f m ∈ (forward_train d sres).1 → m.isBinary = true) ∧
    (∀ (d : Detector) (props : List Box) (cfg : CfgVal) (rsc : Bool) (f m : T4),
       Event.refineHeadCall f m ∈ (refine_test_bboxes d props cfg rsc).1 →
       m.isBinary = true) := by
  constructor
  · intro d sres f m h
    obtain ⟨thr, mf, hm, -⟩ := forward_train_refine_inv d sres f m h
    exact hm ▸ binGe_isBinary _ _
  · intro d props cfg rsc f m h
    obtain ⟨thr, hm, -, -⟩ := refine_test_refine_inv d props cfg rsc f m h
    exact hm ▸ binGt_isBinary _ _

/-- Witness for C4: the concrete refinement-head invocations of
`dResample`'s training step and `dNested`'s inference pass carry binary
masks. -/
theorem c4_refinement_mask_binary_witness :
    mW.isBinary = true ∧ mW2.isBinary = true :=
  ⟨c4_refinement_mask_binary.1 dResample [sres1] fW mW (by decide),
   c4_refinement_mask_binary.2 dNested [box1] nestedTestRcnn false fW2 mW2 (by decide)⟩

/-- C5: whenever the Refinement Head is invoked, its features argument
and its binarized-mask argument have the same number of regions: in
training both equal the total count of positive sampled boxes, and in
inference both equal the number of candidate boxes. -/
theorem c5_region_alignment :
    (∀ (d : Detector) (sres : List SampRes) (f m : T4),
       Event.refineHeadCall f m ∈ (forward_train d sres).1 →
       f.n = totalPos sres ∧ m.n = totalPos sres) ∧
    (∀ (d : Detector) (props : List Box) (cfg : CfgVal) (rsc : Bool) (f m : T4),
       Event.refineHeadCall f m ∈ (refine_test_bboxes d props cfg rsc).1 →
       f.n = props.length ∧ m.n = props.length) := by
  constructor
  · intro d sres f m h
    obtain ⟨thr, mf, -, -, hfn, hmn⟩ := forward_train_refine_inv d sres f m h
    exact ⟨hfn, hmn⟩
  · intro d props cfg rsc f m h
    obtain ⟨thr, -, hfn, hmn⟩ := refine_test_refine_inv d props cfg rsc f m h
    exact ⟨hfn, hmn⟩

/-- Witness for C5: alignment at the concrete training invocation of
`dResample` (one positive box) and the concrete inference invocation of
`dNested` (one candidate box). -/
theorem c5_region_alignment_witness :
    (fW.n = totalPos [sres1] ∧ mW.n = totalPos [sres1]) ∧
    (fW2.n = [box1].length ∧ mW2.n = [box1].length) :=
  ⟨c5_region_alignment.1 dResample [sres1] fW mW (by decide),
   c5_region_alignment.2 dNested [box1] nestedTestRcnn false fW2 mW2 (by decide)⟩

/-- C6: a successful training step returns exactly the loss keys of the
enabled stages — RPN keys iff the RPN is enabled, box keys iff the box
head is enabled, and the mask and refinement keys iff the mask head is
enabled; with the mask head disabled, the mask and refinement loss keys
are absent and the Refinement Head is never invoked. -/
theorem c6_loss_keys_exact :
    ∀ (d : Detector) (sres : List SampRes) (keys : List String),
      (forward_train d sres).2 = .ok keys →
      keys =
        (if d.with_rpn then rpnLossKeys else []) ++
        (if d.with_bbox then bboxLossKeys else []) ++
        (if d.with_mask then maskLossKeys ++ refineLossKeys else []) ∧
      (d.with_mask = false →
        "loss_mask" ∉ keys ∧ "loss_refine_cls" ∉ keys ∧ "loss_refine_bbox" ∉ keys ∧
        ∀ f m : T4, Event.refineHeadCall f m ∉ (forward_train d sres).1) := by
  intro d sres keys h
  refine ⟨forward_train_ok_keys d sres keys h, fun hm => ?_⟩
  have hk := forward_train_ok_keys d sres keys h
  rw [hk]
  refine ⟨?_, ?_, ?_, ?_⟩
  · by_cases h1 : d.with_rpn = true <;> by_cases h2 : d.with_bbox = true <;>
      simp [h1, h2, hm, rpnLossKeys, bboxLossKeys]
  · by_cases h1 : d.with_rpn = true <;> by_cases h2 : d.with_bbox = true <;>
      simp [h1, h2, hm, rpnLossKeys, bboxLossKeys]
  · by_cases h1 : d.with_rpn = true <;> by_cases h2 : d.with_bbox = true <;>
      simp [h1, h2, hm, rpnLossKeys, bboxLossKeys]
  · intro f m
    unfold forward_train
    simp only [hm, Bool.false_eq_true, if_false]
    exact preMask_no_refine d sres f m

/-- Witness for C6: `dResample` (all stages enabled) returns exactly
the four stages' loss keys. -/
theorem c6_loss_keys_exact_witness :
    rpnLossKeys ++ bboxLossKeys ++ (maskLossKeys ++ refineLossKeys) =
      (if dResample.with_rpn then rpnLossKeys else []) ++
      (if dResample.with_bbox then bboxLossKeys else []) ++
      (if dResample.with_mask then maskLossKeys ++ refineLossKeys else []) :=
  (c6_loss_keys_exact dResample [sres1]
    (rpnLossKeys ++ bboxLossKeys ++ (maskLossKeys ++ refineLossKeys)) (by rfl)).1

/-- C7 counterexample: on a detector whose training config lacks
`refine_sample`, the training step does raise the missing-key error,
but only at the refinement sub-step — after feature extraction and the
mask-head forward have already run — not before any tensor
computation begins. -/
theorem c7_counterexample :
    (forward_train dNoRefine [sres1]).2 = .error "AttributeError: refine_sample" ∧
    Event.extractFeat ∈ (forward_train dNoRefine [sres1]).1 ∧
    Event.maskHeadCall 1 ∈ (forward_train dNoRefine [sres1]).1 := by
  refine ⟨rfl, by decide, by decide⟩

/-- C7 (amended): when `refine_sample` is absent from the training rcnn
config and the refinement sub-step is reached (mask stage enabled, and
the mask features obtainable — separate RoI extractors, or the shared
extractor together with the box head), `forward_train` raises the
missing-key configuration error only at the refinement sub-step, after
feature extraction and the mask-head forward have already executed —
not before tensor computation; with the mask stage disabled no error is
reported at all and the step returns its loss mapping. -/
theorem c7_missing_refine_sample_late_error :
    (∀ (d : Detector) (sres : List SampRes),
       d.with_mask = true →
       (d.share_roi_extractor = false ∨ d.with_bbox = true) →
       d.train_cfg.attr2 "rcnn" "refine_sample" = .error "AttributeError: refine_sample" →
       (forward_train d sres).2 = .error "AttributeError: refine_sample" ∧
       Event.extractFeat ∈ (forward_train d sres).1 ∧
       Event.maskHeadCall (totalPos sres) ∈ (forward_train d sres).1) ∧
    (∀ (d : Detector) (sres : List SampRes),
       d.with_mask = false →
       (forward_train d sres).2 = .ok (preMaskResult d sres).2.1) := by
  constructor
  · intro d sres hm hcfg hat
    obtain ⟨mf, ev, htm⟩ : ∃ mf ev,
        trainMaskFeats d sres (preMaskResult d sres).2.2 = .ok (mf, ev) := by
      by_cases hs : d.share_roi_extractor = true
      · have hb : d.with_bbox = true := by
          rcases hcfg with h | h
          · rw [h] at hs; exact absurd hs (by simp)
          · exact h
        obtain ⟨b, hb2⟩ := preMask_bf_some d sres hb
        exact ⟨⟨b.c, b.h, b.w, maskSelect (posIndsMask sres) b.data⟩, [],
               by simp [trainMaskFeats, hs, hb2]⟩
      · by_cases hsh : d.with_shared_head = true
        · exact ⟨maskRoiExtract d (trainPosRois sres),
                 [Event.maskRoiCall (trainPosRois sres).length, Event.sharedHeadCall],
                 by simp [trainMaskFeats, hs, hsh, sharedHeadApply]⟩
        · exact ⟨maskRoiExtract d (trainPosRois sres),
                 [Event.maskRoiCall (trainPosRois sres).length],
                 by simp [trainMaskFeats, hs, hsh]⟩
    have hn : mf.n = totalPos sres :=
      trainMaskFeats_n d sres ((preMaskResult d sres).2.2) mf ev htm
        (fun b hb => preMask_bf d sres b hb)
    refine ⟨?_, ?_, ?_⟩
    · simp [forward_train, hm, maskStage, htm, hat]
    · simp only [forward_train, hm, if_true, maskStage, htm, hat, List.mem_append]
      exact Or.inl (preMask_extract d sres)
    · simp only [forward_train, hm, if_true, maskStage, htm, hat, List.mem_append]
      right
      simp [List.mem_append, hn]
  · intro d sres hm
    simp [forward_train, hm]

/-- Witness for C7 (amended): the late error at the concrete detector
`dNoRefine`, and the error-free loss mapping at the mask-disabled
detector `dNoMask`. -/
theorem c7_missing_refine_sample_late_error_witness :
    ((forward_train dNoRefine [sres1]).2 = .error "AttributeError: refine_sample" ∧
     Event.extractFeat ∈ (forward_train dNoRefine [sres1]).1 ∧
     Event.maskHeadCall (totalPos [sres1]) ∈ (forward_train dNoRefine [sres1]).1) ∧
    (forward_train dNoMask [sres1]).2 = .ok (preMaskResult dNoMask [sres1]).2.1 :=
  ⟨c7_missing_refine_sample_late_error.1 dNoRefine [sres1] rfl (Or.inl rfl) rfl,
   c7_missing_refine_sample_late_error.2 dNoMask [sres1] rfl⟩

theorem countBoxRoi_append (a b : List Event) :
    countBoxRoi (a ++ b) = countBoxRoi a + countBoxRoi b := by
  simp [countBoxRoi, List.countP_append]

/-- C2 counterexample: in the constructible shared-RoI-extractor
configuration (`dShared`), a training step with `refine_sample =
'resample'` reaches the refinement sub-step and then raises the
unbound-local error on `pos_rois` — which is bound only in the
separate-extractor branch (lines 123-125) — instead of invoking the
box-RoI extractor on the positive boxes: the trace holds exactly the
box stage's single extractor call (on all sampled boxes, never one on
the positive boxes alone), and the step errors. -/
theorem c2_shared_resample_counterexample :
    (forward_train dShared [sres1]).2 =
      .error "NameError: name pos_rois is not defined" ∧
    countBoxRoi (forward_train dShared [sres1]).1 = 1 ∧
    Event.bboxRoiCall (totalPos [sres1]) ∉ (forward_train dShared [sres1]).1 := by
  refine ⟨rfl, rfl, by decide⟩

/-- C2 (amended): the `refine_sample` policy routes the
refinement-input features.  In training (policy read from
`train_cfg.rcnn`) `resample` hands the Refinement Head features
re-pooled by the box-RoI extractor from the positive rois provided the
box and mask RoI extractors are separate (in the shared-extractor
configuration this branch instead raises the unbound-local `pos_rois`
error), and `interpolate` hands it the already-pooled mask features —
in either extractor configuration — spatially resized to the box
head's 7x7 resolution with no additional box-RoI-extractor invocation;
at inference (policy read from `test_cfg.rcnn`) `resample` re-pools
from the candidate rois and `interpolate` resizes the pooled mask
features, unconditionally. -/
theorem c2_refine_sample_policy :
    (∀ (d : Detector) (sres : List SampRes) (thr : ℚ),
       d.with_mask = true → d.share_roi_extractor = false →
       d.train_cfg.attr2 "rcnn" "refine_sample" = .ok (.s "resample") →
       d.train_cfg.attr2Q "rcnn" "mask_thr_binary" = .ok thr →
       Event.refineHeadCall (bboxRoiExtract d (trainPosRois sres))
         (((maskHeadForward d (maskRoiExtract d (trainPosRois sres))).dropBg).binGe thr)
         ∈ (forward_train d sres).1) ∧
    (∀ (d : Detector) (sres : List SampRes) (thr : ℚ) (mf : T4) (ev : List Event),
       d.with_mask = true →
       d.train_cfg.attr2 "rcnn" "refine_sample" = .ok (.s "interpolate") →
       d.train_cfg.attr2Q "rcnn" "mask_thr_binary" = .ok thr →
       trainMaskFeats d sres (preMaskResult d sres).2.2 = .ok (mf, ev) →
       Event.refineHeadCall (interpT4 mf 7 7)
         (((maskHeadForward d mf).dropBg).binGe thr)
         ∈ (forward_train d sres).1 ∧
       countBoxRoi (forward_train d sres).1 = (if d.with_bbox = true then 1 else 0)) ∧
    (∀ (d : Detector) (props : List Box) (cfg : CfgVal) (rsc : Bool) (thr : ℚ),
       d.test_cfg.attr2 "rcnn" "refine_sample" = .ok (.s "resample") →
       cfg.attr2Q "rcnn" "mask_thr_binary" = .ok thr →
       Event.refineHeadCall (bboxRoiExtract d (bbox2roi [props]))
         (((maskHeadForward d (maskRoiExtract d (bbox2roi [props]))).dropBg).binGt thr)
         ∈ (refine_test_bboxes d props cfg rsc).1) ∧
    (∀ (d : Detector) (props : List Box) (cfg : CfgVal) (rsc : Bool) (thr : ℚ),
       d.test_cfg.attr2 "rcnn" "refine_sample" = .ok (.s "interpolate") →
       cfg.attr2Q "rcnn" "mask_thr_binary" = .ok thr →
       Event.refineHeadCall (interpT4 (maskRoiExtract d (bbox2roi [props])) 7 7)
         (((maskHeadForward d (maskRoiExtract d (bbox2roi [props]))).dropBg).binGt thr)
         ∈ (refine_test_bboxes d props cfg rsc).1 ∧
       countBoxRoi (refine_test_bboxes d props cfg rsc).1 = 0) := by
  refine ⟨?_, ?_, ?_, ?_⟩
  · intro d sres thr hm hs hpol hthr
    by_cases hsh : d.with_shared_head = true
    · have htm : trainMaskFeats d sres (preMaskResult d sres).2.2 =
          .ok (maskRoiExtract d (trainPosRois sres),
               [Event.maskRoiCall (trainPosRois sres).length, Event.sharedHeadCall]) := by
        simp [trainMaskFeats, hs, hsh, sharedHeadApply]
      simp [forward_train, hm, maskStage, htm, hpol, hthr, refineFeatsSelect,
            cfgEqStr, trainPosRoisOpt, hs, List.mem_append]
    · have htm : trainMaskFeats d sres (preMaskResult d sres).2.2 =
          .ok (maskRoiExtract d (trainPosRois sres),
               [Event.maskRoiCall (trainPosRois sres).length]) := by
        simp [trainMaskFeats, hs, hsh]
      simp [forward_train, hm, maskStage, htm, hpol, hthr, refineFeatsSelect,
            cfgEqStr, trainPosRoisOpt, hs, List.mem_append]
  · intro d sres thr mf ev hm hpol hthr htm
    have hev0 : countBoxRoi ev = 0 := trainMaskFeats_countBoxRoi d sres _ mf ev htm
    constructor
    · simp [forward_train, hm, maskStage, htm, hpol, hthr, refineFeatsSelect,
            cfgEqStr, List.mem_append]
    · simp only [forward_train, hm, if_true, maskStage, htm, hpol, hthr,
                 refineFeatsSelect, cfgEqStr]
      rw [countBoxRoi_append, preMask_countBoxRoi]
      simp only [countBoxRoi] at hev0
      simp [countBoxRoi, List.countP_append, List.countP_cons, isBoxRoiEvent, hev0]
      intro a ha
      have h2 := List.countP_eq_zero.mp hev0 a ha
      simpa [isBoxRoiEvent] using h2
  · intro d props cfg rsc thr hpol hthr
    by_cases hsh : d.with_shared_head = true <;>
      simp [refine_test_bboxes, hpol, hthr, refineFeatsSelect, cfgEqStr,
            sharedHeadApply, hsh, List.mem_append]
  · intro d props cfg rsc thr hpol hthr
    by_cases hsh : d.with_shared_head = true
    · constructor
      · simp [refine_test_bboxes, hpol, hthr, refineFeatsSelect, cfgEqStr,
              sharedHeadApply, hsh, List.mem_append]
      · simp only [refine_test_bboxes, hpol, hthr, refineFeatsSelect, cfgEqStr, hsh]
        simp [countBoxRoi, List.countP_cons, List.countP_append, isBoxRoiEvent]
    · constructor
      · simp [refine_test_bboxes, hpol, hthr, refineFeatsSelect, cfgEqStr,
              sharedHeadApply, hsh, List.mem_append]
      · simp only [refine_test_bboxes, hpol, hthr, refineFeatsSelect, cfgEqStr, hsh]
        simp [countBoxRoi, List.countP_cons, List.countP_append, isBoxRoiEvent]

/-- Witness for C2: the four policy routes exercised on concrete
detectors (`dResample`/`dInterp` in training, `dNested`/`dInterp` at
inference). -/
theorem c2_refine_sample_policy_witness :
    (Event.refineHeadCall (bboxRoiExtract dResample (trainPosRois [sres1]))
       (((maskHeadForward dResample (maskRoiExtract dResample (trainPosRois [sres1]))).dropBg).binGe 0)
       ∈ (forward_train dResample [sres1]).1) ∧
    (Event.refineHeadCall (interpT4 (maskRoiExtract dInterp (trainPosRois [sres1])) 7 7)
       (((maskHeadForward dInterp (maskRoiExtract dInterp (trainPosRois [sres1]))).dropBg).binGe 0)
       ∈ (forward_train dInterp [sres1]).1 ∧
     countBoxRoi (forward_train dInterp [sres1]).1 =
       (if dInterp.with_bbox = true then 1 else 0)) ∧
    (Event.refineHeadCall (bboxRoiExtract dNested (bbox2roi [[box1]]))
       (((maskHeadForward dNested (maskRoiExtract dNested (bbox2roi [[box1]]))).dropBg).binGt 0)
       ∈ (refine_test_bboxes dNested [box1] nestedTestRcnn false).1) ∧
    (Event.refineHeadCall (interpT4 (maskRoiExtract dInterp (bbox2roi [[box1]])) 7 7)
       (((maskHeadForward dInterp (maskRoiExtract dInterp (bbox2roi [[box1]]))).dropBg).binGt 0)
       ∈ (refine_test_bboxes dInterp [box1] nestedInterpTestRcnn false).1 ∧
     countBoxRoi (refine_test_bboxes dInterp [box1] nestedInterpTestRcnn false).1 = 0) :=
  ⟨c2_refine_sample_policy.1 dResample [sres1] 0 rfl rfl rfl rfl,
   c2_refine_sample_policy.2.1 dInterp [sres1] 0
     (maskRoiExtract dInterp (trainPosRois [sres1]))
     [Event.maskRoiCall (trainPosRois [sres1]).length] rfl rfl rfl rfl,
   c2_refine_sample_policy.2.2.1 dNested [box1] nestedTestRcnn false 0 rfl rfl,
   c2_refine_sample_policy.2.2.2 dInterp [box1] nestedInterpTestRcnn false 0 rfl rfl⟩
